import Mathlib

/-!
Shallow embedding of the microfab node-lifecycle supervisor and PKI/trust
bootstrap subsystem, covering:

* `internal/pkg/msp` (the `msp.New` constructor and its accessors);
* `internal/pkg/util` (`CreateMSPDirectory`);
* `internal/pkg/peer` (`Peer.Port`, `Peer.createConfig`, `Peer.Start`,
  `Peer.Stop`, and the timeout / process-exit / probe select loop).

File-system effects are modelled as explicit traces of operations, the
YAML template document as an association-list value tree, and the
`Start()` select loop as a function over an explicit event schedule.
-/

/-- Go `path.Join(a, b)` for the non-empty, already-clean path segments used
by this code base: `a ++ "/" ++ b`. -/
def pathJoin (a b : String) : String := a ++ "/" ++ b

/-- Opaque encoded bytes (PEM payloads etc.), as in Go `[]byte`. -/
abbrev Bytes := List Nat

namespace Microfab

/-! ## `internal/pkg/identity/certificate` and `internal/pkg/msp` -/

/-- A loaded certificate: an immutable wrapper around encoded bytes
(`certificate.Certificate`). -/
structure Certificate where
  bytes : Bytes
deriving DecidableEq, Repr

/-- `msp.MSP`: a loaded MSP definition (ID, root certificates, admin
certificates). -/
structure MSP where
  mspID : String
  rootCertificates : List Certificate
  adminCertificates : List Certificate
deriving DecidableEq, Repr

/-- `msp.New`: creates a new MSP.  The Go function is
`func New(mspID string, rootCertificates, adminCertificates []*certificate.Certificate) (*MSP, error)`
whose body is `return &MSP{mspID, rootCertificates, adminCertificates}, nil`. -/
def msp.New (mspID : String) (rootCertificates adminCertificates : List Certificate) :
    Except String MSP :=
  .ok ⟨mspID, rootCertificates, adminCertificates⟩

/-- `MSP.ID`: returns the ID of the MSP. -/
def MSP.ID (m : MSP) : String := m.mspID

/-- `MSP.RootCertificates`: returns the root certificates of the MSP. -/
def MSP.RootCertificates (m : MSP) : List Certificate := m.rootCertificates

/-- `MSP.AdminCertificates`: returns the admin certificates of the MSP. -/
def MSP.AdminCertificates (m : MSP) : List Certificate := m.adminCertificates

/-! ## `internal/pkg/identity` (accessor surface used by `util`) -/

/-- The accessor surface of `identity.Identity` that `util.CreateMSPDirectory`
consumes: `PrivateKey().Bytes()`, `Certificate().Bytes()` and `CA()`
(the issuing CA's certificate, `nil` when the identity has no issuer). -/
structure Identity where
  privateKeyBytes : Bytes
  certificateBytes : Bytes
  caBytes : Option Bytes
deriving DecidableEq, Repr

/-! ## File-system effect traces -/

/-- What a file write carries: Go writes either a fixed string constant or a
byte slice. -/
inductive FileContent where
  | text (s : String)
  | bytes (b : Bytes)
deriving DecidableEq, Repr

/-- One file-system operation performed by the materializer. -/
inductive FSOp where
  | mkdirAll (p : String)
  | writeFile (p : String) (content : FileContent)
deriving DecidableEq, Repr

/-- The directories created (in order) by a trace. -/
def dirsOf (ops : List FSOp) : List String :=
  ops.filterMap fun op =>
    match op with
    | .mkdirAll p => some p
    | .writeFile _ _ => none

/-- The files written (in order, path with content) by a trace. -/
def writesOf (ops : List FSOp) : List (String × FileContent) :=
  ops.filterMap fun op =>
    match op with
    | .mkdirAll _ => none
    | .writeFile p c => some (p, c)

/-! ## `internal/pkg/util` -/

/-- The fixed NodeOUs trust-policy descriptor constant (`util.config`): enables
node-organizational-unit classification and maps all four roles to the same CA
certificate file. -/
def nodeOUsConfig : String :=
  "NodeOUs:\n  Enable: true\n  ClientOUIdentifier:\n    Certificate: cacerts/ca.pem\n    OrganizationalUnitIdentifier: client\n  AdminOUIdentifier:\n    Certificate: cacerts/ca.pem\n    OrganizationalUnitIdentifier: admin\n  PeerOUIdentifier:\n    Certificate: cacerts/ca.pem\n    OrganizationalUnitIdentifier: peer\n  OrdererOUIdentifier:\n    Certificate: cacerts/ca.pem\n    OrganizationalUnitIdentifier: orderer\n"

/-- `util.CreateMSPDirectory(directory, identity)`: the file-system trace it
performs when every operation succeeds, in source order — the five `MkdirAll`
calls, the `config.yaml` policy descriptor, the private key, the signing
certificate, and (iff `identity.CA() != nil`) the issuing CA's certificate. -/
def CreateMSPDirectory (directory : String) (identity : Identity) : List FSOp :=
  [ .mkdirAll directory,
    .mkdirAll (pathJoin directory "admincerts"),
    .mkdirAll (pathJoin directory "cacerts"),
    .mkdirAll (pathJoin directory "keystore"),
    .mkdirAll (pathJoin directory "signcerts"),
    .writeFile (pathJoin directory "config.yaml") (.text nodeOUsConfig),
    .writeFile (pathJoin (pathJoin directory "keystore") "key.pem")
      (.bytes identity.privateKeyBytes),
    .writeFile (pathJoin (pathJoin directory "signcerts") "cert.pem")
      (.bytes identity.certificateBytes) ]
  ++ (match identity.caBytes with
      | some ca => [.writeFile (pathJoin (pathJoin directory "cacerts") "ca.pem") (.bytes ca)]
      | none => [])

/-! ## YAML document model

The Go code loads `core.yaml` with `yaml.Unmarshal` into a
`map[interface{}]interface{}`; all keys used by this code are strings.  We
model a YAML map as an association list of string keys (a map produced by
`yaml.Unmarshal` has unique keys), and values as a simple tree. -/

/-- A YAML value tree, sufficient for the fields `createConfig` touches. -/
inductive YamlValue where
  | str (s : String)
  | int (n : Int)
  | bool (b : Bool)
  | list (xs : List YamlValue)
  | map (entries : List (String × YamlValue))

/-- A YAML mapping: string keys to values. -/
abbrev YamlMap := List (String × YamlValue)

/-- Lookup of a key in a YAML mapping (`config["peer"]`). -/
def getKey : YamlMap → String → Option YamlValue
  | [], _ => none
  | (k', v') :: rest, k => if k' = k then some v' else getKey rest k

/-- Go map assignment `m[k] = v`: replace the existing binding, or add one. -/
def setKey : YamlMap → String → YamlValue → YamlMap
  | [], k, v => [(k, v)]
  | (k', v') :: rest, k, v =>
    if k' = k then (k, v) :: rest else (k', v') :: setKey rest k v

/-- `config["peer"].(map[interface{}]interface{})`: lookup plus the map type
assertion; `none` when the key is absent or not a mapping. -/
def getMap (m : YamlMap) (k : String) : Option YamlMap :=
  match getKey m k with
  | some (.map mm) => some mm
  | _ => none

/-! ## `internal/pkg/peer` -/

/-- The fields of `peer.Peer` that `Port`, `createConfig` and the lifecycle
operations read.  `apiHost` models `p.apiURL.Host`; `apiPortString` models
`p.apiURL.Port()` (empty when the URL has no port component). -/
structure Peer where
  orgName : String
  mspID : String
  directory : String
  apiPort : Int
  chaincodePort : Int
  operationsPort : Int
  apiHost : String
  apiPortString : String

/-- `fmt.Sprintf("0.0.0.0:%d", port)`. -/
def listenOn (port : Int) : String := "0.0.0.0:" ++ toString port

/-- The fixed `chaincode.externalBuilders` entries installed by
`createConfig`: four builder entries (Go, Java, Node, external-service), each
with a builder path under `<home>/builders` and an explicit
`propagateEnvironment` allow-list. -/
def builderEntries (homeDirectory : String) : List YamlValue :=
    [ .map
        [ ("path", .str (pathJoin (pathJoin homeDirectory "builders") "golang")),
          ("name", .str "golang"),
          ("propagateEnvironment",
            .list [.str "GOCACHE", .str "GOENV", .str "GOROOT", .str "HOME"]) ],
      .map
        [ ("path", .str (pathJoin (pathJoin homeDirectory "builders") "java")),
          ("name", .str "java"),
          ("propagateEnvironment",
            .list [.str "HOME", .str "JAVA_HOME", .str "MAVEN_OPTS"]) ],
      .map
        [ ("path", .str (pathJoin (pathJoin homeDirectory "builders") "node")),
          ("name", .str "node"),
          ("propagateEnvironment",
            .list [.str "HOME", .str "npm_config_cache"]) ],
      .map
        [ ("path", .str (pathJoin (pathJoin homeDirectory "builders") "external")),
          ("name", .str "external-service-builder"),
          ("propagateEnvironment", .list [.str "HOME"]) ] ]

/-- The `chaincode["externalBuilders"]` value as a YAML list. -/
def externalBuildersValue (homeDirectory : String) : YamlValue :=
  .list (builderEntries homeDirectory)

/-- The ambient inputs `createConfig` consumes besides the `Peer` itself:
the `FABRIC_CFG_PATH` environment variable (`os.LookupEnv`), the result of
reading and unmarshalling `<FABRIC_CFG_PATH>/core.yaml`, the result of
`util.GetHomeDirectory()`, and the outcome of the final
`ioutil.WriteFile` of the patched document. -/
structure ConfigInputs where
  fabricCfgPath : Option String
  templateRead : Except String YamlMap
  homeDirectory : Except String String
  writeOk : Bool

/-- `Peer.createConfig(dataDirectory, mspDirectory)`: asserts each required
template section in source order (`peer`, `peer.gossip`, `metrics`,
`operations`, `vm`, `chaincode`), applies the fixed field overrides, installs
the fixed `externalBuilders` list, and writes the patched document; returns
the written document.  Errors are the Go error strings. -/
def Peer.createConfig (p : Peer) (ci : ConfigInputs)
    (dataDirectory mspDirectory : String) : Except String YamlMap :=
  match ci.fabricCfgPath with
  | none => .error "FABRIC_CFG_PATH not defined"
  | some _ =>
    match ci.templateRead with
    | .error e => .error e
    | .ok config =>
      match getMap config "peer" with
      | none => .error "core.yaml missing peer section"
      | some peer0 =>
        let peer1 := setKey peer0 "id" (.str (p.orgName.toLower ++ "peer"))
        let peer2 := setKey peer1 "mspConfigPath" (.str mspDirectory)
        let peer3 := setKey peer2 "localMspId" (.str p.mspID)
        let peer4 := setKey peer3 "fileSystemPath" (.str dataDirectory)
        let peer5 := setKey peer4 "address" (.str (listenOn p.apiPort))
        let peer6 := setKey peer5 "listenAddress" (.str (listenOn p.apiPort))
        let peer7 := setKey peer6 "chaincodeListenAddress" (.str (listenOn p.chaincodePort))
        match getMap peer7 "gossip" with
        | none => .error "core.yaml missing peer.gossip section"
        | some gossip0 =>
          let gossip1 := setKey gossip0 "bootstrap" (.str p.apiHost)
          let gossip2 := setKey gossip1 "useLeaderElection" (.bool false)
          let gossip3 := setKey gossip2 "orgLeader" (.bool true)
          let gossip4 := setKey gossip3 "endpoint" (.str p.apiHost)
          let gossip5 := setKey gossip4 "externalEndpoint" (.str p.apiHost)
          let peer8 := setKey peer7 "gossip" (.map gossip5)
          let config1 := setKey config "peer" (.map peer8)
          match getMap config1 "metrics" with
          | none => .error "core.yaml missing metrics section"
          | some metrics0 =>
            let config2 := setKey config1 "metrics"
              (.map (setKey metrics0 "provider" (.str "prometheus")))
            match getMap config2 "operations" with
            | none => .error "core.yaml missing operations section"
            | some operations0 =>
              let config3 := setKey config2 "operations"
                (.map (setKey operations0 "listenAddress" (.str (listenOn p.operationsPort))))
              match getMap config3 "vm" with
              | none => .error "core.yaml missing vm section"
              | some vm0 =>
                let config4 := setKey config3 "vm"
                  (.map (setKey vm0 "endpoint" (.str "")))
                match getMap config4 "chaincode" with
                | none => .error "core.yaml missing chaincode section"
                | some chaincode0 =>
                  match ci.homeDirectory with
                  | .error e => .error e
                  | .ok homeDirectory =>
                    let chaincode1 := setKey chaincode0 "externalBuilders"
                      (externalBuildersValue homeDirectory)
                    let config5 := setKey config4 "chaincode" (.map chaincode1)
                    if ci.writeOk then .ok config5
                    else .error "failed to write core.yaml"

/-! ## Process lifecycle: `Peer.Stop` and the `Peer.Start` select loop -/

/-- The supervision state `Stop` and the select loop act on: whether the
spawned OS process is still running, and whether `p.command` holds a handle
(`p.command != nil`).  Before any spawn both are `false`. -/
structure LoopState where
  procRunning : Bool
  command : Bool
deriving DecidableEq, Repr

/-- `Peer.Stop()`: if a handle exists, call `p.command.Process.Kill()`.
`os.Process.Kill` on the peer's child process succeeds while the process is
still running and fails with `os: process already finished` once the monitor
goroutine's `cmd.Wait()` has reaped it.  On kill success the handle is
cleared (`p.command = nil`); on kill failure the Go code returns the wrapped
error *before* the `p.command = nil` line, leaving the handle in place. -/
def Peer.Stop (s : LoopState) : Except String Unit × LoopState :=
  if s.command then
    if s.procRunning then (.ok (), ⟨false, false⟩)
    else (.error "failed to stop peer: os: process already finished", s)
  else (.ok (), s)

/-- One event observed by the `Start()` wait loop:
* `timeout` — the 10-second `time.After` timer fires;
* `exitClean` — the process exits and `cmd.Wait()` returns `nil`
  (exit status 0): the monitor goroutine sends *nothing* on `errchan`;
* `exitErr cause` — the process exits and `cmd.Wait()` returns a non-nil
  error rendered as `cause`: the monitor goroutine sends it on the
  single-slot `errchan` and the `select` receives it;
* `tick probeOk` — the 250 ms ticker fires and `p.hasStarted()` (the
  two-phase health + authenticated probe) returns `probeOk`. -/
inductive StartEvent where
  | timeout
  | exitClean
  | exitErr (cause : String)
  | tick (probeOk : Bool)
deriving DecidableEq, Repr

/-- The `for { select { ... } }` loop at the end of `Peer.Start`, run over an
explicit event schedule.  `none` means the schedule ended with the loop still
blocked.  The `timeout` and `exitErr` branches call `p.Stop()` and discard its
result, as the Go code does (`errors.WithMessage` renders the wrapped process
exit cause after the `failed to start peer` prefix). -/
def runStartLoop : List StartEvent → LoopState → Option (Except String Unit × LoopState)
  | [], _ => none
  | .timeout :: _, s =>
    some (.error "timeout whilst waiting for peer to start", (Peer.Stop s).2)
  | .exitClean :: rest, s => runStartLoop rest { s with procRunning := false }
  | .exitErr cause :: _, s =>
    some (.error ("failed to start peer: " ++ cause),
      (Peer.Stop { s with procRunning := false }).2)
  | .tick probeOk :: rest, s =>
    if probeOk then some (.ok (), s) else runStartLoop rest s

/-- The externally visible phases of `Peer.Start` before the wait loop, in
source order.  An action appears in the trace only when it completed
successfully. -/
inductive Action where
  | createDirs
  | writeMSPDirectory
  | writeConfigFile
  | spawnProcess
deriving DecidableEq, Repr

/-- All inputs that decide one `Peer.Start()` execution: the peer, the
outcome of `createDirectories` (the five `MkdirAll` calls), the identity
written by `util.CreateMSPDirectory` and that call's I/O outcome, the
`createConfig` inputs, the outcomes of opening `logs/peer.log`, creating the
stdout pipe, and `cmd.Start()`, and the event schedule of the wait loop. -/
structure StartInputs where
  p : Peer
  identity : Identity
  mkdirOk : Bool
  mspWriteOk : Bool
  ci : ConfigInputs
  logOpenOk : Bool
  pipeOk : Bool
  spawnOk : Bool
  events : List StartEvent

/-- The `createConfig` call `Start` makes: `p.createConfig(dataDirectory,
mspDirectory)` with `dataDirectory = path.Join(p.directory, "data")` and
`mspDirectory = path.Join(p.directory, "msp")`. -/
def Peer.startConfig (i : StartInputs) : Except String YamlMap :=
  Peer.createConfig i.p i.ci (pathJoin i.p.directory "data") (pathJoin i.p.directory "msp")

/-- `Peer.Start()`: creates the directory tree, writes the MSP trust
directory, synthesizes and writes the patched config document, opens the log
file and stdout pipe, spawns `peer node start` (setting `p.command`), and
enters the select loop.  Returns the trace of completed phases together with
the loop outcome (`some (result, finalState)`; `none` if the loop is still
blocked); a failed phase aborts immediately with its error and no process. -/
def Peer.Start (i : StartInputs) : List Action × Option (Except String Unit × LoopState) :=
  if i.mkdirOk = false then
    ([], some (.error "failed to create directories", ⟨false, false⟩))
  else if i.mspWriteOk = false then
    ([.createDirs], some (.error "failed to create MSP directory", ⟨false, false⟩))
  else
    match Peer.startConfig i with
    | .error e => ([.createDirs, .writeMSPDirectory], some (.error e, ⟨false, false⟩))
    | .ok _ =>
      if i.logOpenOk = false then
        ([.createDirs, .writeMSPDirectory, .writeConfigFile],
          some (.error "failed to open log file", ⟨false, false⟩))
      else if i.pipeOk = false then
        ([.createDirs, .writeMSPDirectory, .writeConfigFile],
          some (.error "failed to create stdout pipe", ⟨false, false⟩))
      else if i.spawnOk = false then
        ([.createDirs, .writeMSPDirectory, .writeConfigFile],
          some (.error "failed to start process", ⟨false, false⟩))
      else
        ([.createDirs, .writeMSPDirectory, .writeConfigFile, .spawnProcess],
          runStartLoop i.events ⟨true, true⟩)

/-! ## `Peer.Port` and Go `strconv.Atoi` -/

/-- Drop a single leading `+` or `-` sign, reporting whether it was `-`. -/
def stripSign : List Char → Bool × List Char
  | [] => (false, [])
  | c :: rest =>
    if c = '+' then (false, rest)
    else if c = '-' then (true, rest)
    else (false, c :: rest)

/-- Accumulate a decimal digit string into a natural number. -/
def digitsToNatAux (acc : Nat) : List Char → Nat
  | [] => acc
  | c :: rest => digitsToNatAux (acc * 10 + (c.toNat - 48)) rest

/-- Largest Go `int64`. -/
def maxInt64 : Int := 9223372036854775807

/-- Smallest Go `int64`. -/
def minInt64 : Int := -9223372036854775808

/-- Go `strconv.Atoi(s)`: the returned value and whether an error was
returned.  Syntax errors (empty string, stray characters) yield `(0, true)`;
out-of-range values yield the clamped `int64` bound and `true`. -/
def goAtoi (s : String) : Int × Bool :=
  match s.toList with
  | [] => (0, true)
  | cs =>
    let signed := stripSign cs
    let ds := signed.2
    if ds.isEmpty ∨ ¬ ds.all Char.isDigit then (0, true)
    else
      let n : Int := (digitsToNatAux 0 ds : Nat)
      let v : Int := if signed.1 then -n else n
      if v > maxInt64 then (maxInt64, true)
      else if v < minInt64 then (minInt64, true)
      else (v, false)

/-- Go `int32(x)` conversion of an `int64` value: two's-complement
truncation to 32 bits. -/
def int32ofInt (x : Int) : Int := (x + 2 ^ 31) % 2 ^ 32 - 2 ^ 31

/-- `Peer.Port()`: `port, _ := strconv.Atoi(p.apiURL.Port()); return int32(port)` —
the conversion error is discarded. -/
def Peer.Port (p : Peer) : Int := int32ofInt (goAtoi p.apiPortString).1

/-! ## Observation functions used to state the claims -/

/-- The `chaincode.externalBuilders` list of a synthesized document. -/
def externalBuildersOf (m : YamlMap) : Option (List YamlValue) :=
  match getMap m "chaincode" with
  | some cc =>
    match getKey cc "externalBuilders" with
    | some (.list bs) => some bs
    | _ => none
  | none => none

/-- The `chaincode.externalBuilders` list of a `createConfig` result. -/
def buildersOfResult (r : Except String YamlMap) : Option (List YamlValue) :=
  match r with
  | .ok m => externalBuildersOf m
  | .error _ => none

/-- The `propagateEnvironment` string list of one builder entry. -/
def propEnvOfV (b : YamlValue) : Option (List String) :=
  match b with
  | .map entries =>
    match getKey entries "propagateEnvironment" with
    | some (.list xs) =>
      xs.mapM fun v =>
        match v with
        | .str s => some s
        | _ => none
    | _ => none
  | _ => none

/-- Whether a string passes Go `strconv.Atoi`'s syntax check: an optional
single sign followed by at least one decimal digit and nothing else. -/
def isNumericString (s : String) : Bool :=
  !((stripSign s.toList).2).isEmpty && ((stripSign s.toList).2).all Char.isDigit

/-- The value of an unsigned all-digit string, `none` otherwise. -/
def digitStringValue (s : String) : Option Nat :=
  if s.toList.isEmpty = false ∧ s.toList.all Char.isDigit = true
  then some (digitsToNatAux 0 s.toList) else none

/-! ## Concrete fixtures used by witnesses -/

/-- A minimal template document containing every section `createConfig`
requires. -/
def witnessTemplate : YamlMap :=
  [ ("peer", .map [("gossip", .map [])]),
    ("metrics", .map []),
    ("operations", .map []),
    ("vm", .map []),
    ("chaincode", .map []) ]

/-- A template document whose `vm` section is missing (all other required
sections present). -/
def templateNoVM : YamlMap :=
  [ ("peer", .map [("gossip", .map [])]),
    ("metrics", .map []),
    ("operations", .map []),
    ("chaincode", .map []) ]

/-- A concrete peer. -/
def witnessPeer : Peer :=
  ⟨"Org1", "Org1MSP", "/opt/microfab/peer", 7051, 7052, 9443, "localhost:7051", "7051"⟩

/-- A concrete identity with an issuer. -/
def witnessIdentity : Identity := ⟨[1, 2, 3], [4, 5, 6], some [7, 8, 9]⟩

/-- Concrete `createConfig` inputs around a given template. -/
def ciFor (tm : YamlMap) : ConfigInputs :=
  ⟨some "/opt/fabric/config", .ok tm, .ok "/home/microfab", true⟩

/-- Concrete all-phases-succeed `Start` inputs around a given template and
event schedule. -/
def wInputs (tm : YamlMap) (events : List StartEvent) : StartInputs :=
  ⟨witnessPeer, witnessIdentity, true, true, ciFor tm, true, true, true, events⟩

/-! ## Helper lemmas -/

theorem getKey_setKey_self (m : YamlMap) (k : String) (v : YamlValue) :
    getKey (setKey m k v) k = some v := by
  induction m with
  | nil => simp [setKey, getKey]
  | cons hd tl ih =>
    by_cases h : hd.1 = k
    · simp [setKey, getKey, h]
    · simp [setKey, getKey, h, ih]

theorem getKey_setKey_ne (m : YamlMap) (k k' : String) (v : YamlValue)
    (h : k ≠ k') : getKey (setKey m k v) k' = getKey m k' := by
  induction m with
  | nil => simp [setKey, getKey, h]
  | cons hd tl ih =>
    by_cases h2 : hd.1 = k
    · simp [setKey, getKey, h2, h]
    · by_cases h3 : hd.1 = k'
      · simp [setKey, getKey, h2, h3, Ne.symm h]
      · simp [setKey, getKey, h2, h3, ih]

theorem getMap_setKey_self (m : YamlMap) (k : String) (mm : YamlMap) :
    getMap (setKey m k (.map mm)) k = some mm := by
  simp [getMap, getKey_setKey_self]

theorem getMap_setKey_ne (m : YamlMap) (k k' : String) (v : YamlValue)
    (h : k ≠ k') : getMap (setKey m k v) k' = getMap m k' := by
  simp [getMap, getKey_setKey_ne m k k' v h]

theorem runStartLoop_skip_failed_ticks (pre rest : List StartEvent) (s : LoopState)
    (h : ∀ e ∈ pre, e = .tick false) :
    runStartLoop (pre ++ rest) s = runStartLoop rest s := by
  induction pre with
  | nil => rfl
  | cons hd tl ih =>
    have hhd : hd = .tick false := h hd (by simp)
    subst hhd
    have hstep : runStartLoop (StartEvent.tick false :: (tl ++ rest)) s
        = runStartLoop (tl ++ rest) s := by
      simp [runStartLoop]
    rw [List.cons_append, hstep]
    exact ih fun e he => h e (by simp [he])

theorem str_ne_of_length_ne {s t : String} (h : s.length ≠ t.length) : s ≠ t :=
  fun he => h (he ▸ rfl)

theorem pathJoin_length (a b : String) :
    (pathJoin a b).length = a.length + 1 + b.length := by
  simp only [pathJoin, String.length_append]
  have h1 : ("/" : String).length = 1 := by decide
  omega

/-! ## Claim C9 — `msp.New` -/

/-- C9 counterexample: the claim says the constructor rejects the empty
identifier ("for the empty id it does not produce a Trust Descriptor"), but
`msp.New` succeeds on the empty MSP ID and produces a descriptor. -/
theorem C9_counterexample :
    msp.New "" [] [] = Except.ok ⟨"", [], []⟩ :=
  rfl

/-- C9 (amended): `msp.New` is a pure value constructor performing no
validation at all — for every identifier (the empty one included) and any
certificate lists it succeeds, stores the inputs unchanged, and the read
accessors return the stored values. -/
theorem C9_msp_new_pure_constructor (mspID : String)
    (roots admins : List Certificate) :
    msp.New mspID roots admins = Except.ok ⟨mspID, roots, admins⟩ ∧
    MSP.ID ⟨mspID, roots, admins⟩ = mspID ∧
    MSP.RootCertificates ⟨mspID, roots, admins⟩ = roots ∧
    MSP.AdminCertificates ⟨mspID, roots, admins⟩ = admins :=
  ⟨rfl, rfl, rfl, rfl⟩

/-! ## Claim C2 — `Peer.Stop` on kill failure -/

/-- C2 counterexample: with a live handle whose process has already gone
(the kill signal fails), `Stop()` reports the stop error but does NOT clear
the handle — `p.command` is still set afterwards, contradicting "the handle
is cleared regardless". -/
theorem C2_counterexample :
    Peer.Stop ⟨false, true⟩ =
      (Except.error "failed to stop peer: os: process already finished",
        ⟨false, true⟩) ∧
    ((Peer.Stop ⟨false, true⟩).2).command = true :=
  ⟨rfl, rfl⟩

/-- C2 (amended): when the termination signal fails, `Stop()` reports a stop
error to the caller and leaves the Node's process handle in place (the Go
code returns before the `p.command = nil` assignment), so a subsequent
`Stop()` retries the kill instead of being a no-op. -/
theorem C2_stop_failure_keeps_handle (s : LoopState)
    (hc : s.command = true) (hr : s.procRunning = false) :
    Peer.Stop s =
      (Except.error "failed to stop peer: os: process already finished", s) ∧
    ((Peer.Stop s).2).command = true := by
  constructor
  · simp [Peer.Stop, hc, hr]
  · simp [Peer.Stop, hc, hr]

/-- C2 witness: the amended theorem applied at the concrete state with a
handle and an already-exited process. -/
theorem C2_witness :
    Peer.Stop ⟨false, true⟩ =
      (Except.error "failed to stop peer: os: process already finished",
        (⟨false, true⟩ : LoopState)) ∧
    ((Peer.Stop ⟨false, true⟩).2).command = true :=
  C2_stop_failure_keeps_handle ⟨false, true⟩ rfl rfl

/-! ## Claim C8 — `Stop` idempotence -/

/-- C8: `Stop()` on a Node with no process handle (never started or already
stopped) returns success and changes nothing; a second `Stop()` immediately
after a first one never changes the state further, and if the first `Stop()`
returned success so does the second. -/
theorem C8_stop_idempotent (s : LoopState) :
    (s.command = false → Peer.Stop s = (Except.ok (), s)) ∧
    (Peer.Stop (Peer.Stop s).2).2 = (Peer.Stop s).2 ∧
    ((Peer.Stop s).1 = Except.ok () → (Peer.Stop (Peer.Stop s).2).1 = Except.ok ()) := by
  obtain ⟨pr, cmd⟩ := s
  cases pr <;> cases cmd <;> simp [Peer.Stop]

/-- C8 witness: the theorem applied at the never-started state. -/
theorem C8_witness :
    Peer.Stop ⟨false, false⟩ = (Except.ok (), (⟨false, false⟩ : LoopState)) ∧
    (Peer.Stop (Peer.Stop ⟨false, false⟩).2).2 = (Peer.Stop ⟨false, false⟩).2 :=
  ⟨(C8_stop_idempotent ⟨false, false⟩).1 rfl, (C8_stop_idempotent ⟨false, false⟩).2.1⟩

/-! ## Claim C6 — `CreateMSPDirectory` layout -/

/-- C6: for every identity, writing the trust directory creates exactly the
four subdirectories `admincerts/`, `cacerts/`, `keystore/`, `signcerts/`
(under the directory itself) and writes exactly the fixed policy descriptor,
the private-key file and the signing-certificate file, plus the
CA-certificate file iff the identity has an issuer; the written key and
certificate bytes equal the in-memory identity's bytes. -/
theorem C6_create_msp_directory_layout (dir : String) (id : Identity) :
    dirsOf (CreateMSPDirectory dir id) =
      [dir, pathJoin dir "admincerts", pathJoin dir "cacerts",
       pathJoin dir "keystore", pathJoin dir "signcerts"] ∧
    writesOf (CreateMSPDirectory dir id) =
      [(pathJoin dir "config.yaml", .text nodeOUsConfig),
       (pathJoin (pathJoin dir "keystore") "key.pem", .bytes id.privateKeyBytes),
       (pathJoin (pathJoin dir "signcerts") "cert.pem", .bytes id.certificateBytes)]
      ++ (match id.caBytes with
          | some ca => [(pathJoin (pathJoin dir "cacerts") "ca.pem", .bytes ca)]
          | none => []) ∧
    ((∃ c, (pathJoin (pathJoin dir "cacerts") "ca.pem", c) ∈
        writesOf (CreateMSPDirectory dir id)) ↔ id.caBytes ≠ none) ∧
    (∀ ca, id.caBytes = some ca →
      (pathJoin (pathJoin dir "cacerts") "ca.pem", FileContent.bytes ca) ∈
        writesOf (CreateMSPDirectory dir id)) := by
  have l1 : ("config.yaml" : String).length = 11 := by decide
  have l2 : ("cacerts" : String).length = 7 := by decide
  have l3 : ("ca.pem" : String).length = 6 := by decide
  have l4 : ("keystore" : String).length = 8 := by decide
  have l5 : ("key.pem" : String).length = 7 := by decide
  have l6 : ("signcerts" : String).length = 9 := by decide
  have l7 : ("cert.pem" : String).length = 8 := by decide
  have hne1 : pathJoin (pathJoin dir "cacerts") "ca.pem" ≠ pathJoin dir "config.yaml" := by
    apply str_ne_of_length_ne
    simp only [pathJoin_length, l1, l2, l3]
    omega
  have hne2 : pathJoin (pathJoin dir "cacerts") "ca.pem" ≠
      pathJoin (pathJoin dir "keystore") "key.pem" := by
    apply str_ne_of_length_ne
    simp only [pathJoin_length, l2, l3, l4, l5]
    omega
  have hne3 : pathJoin (pathJoin dir "cacerts") "ca.pem" ≠
      pathJoin (pathJoin dir "signcerts") "cert.pem" := by
    apply str_ne_of_length_ne
    simp only [pathJoin_length, l2, l3, l6, l7]
    omega
  refine ⟨?_, ?_, ?_, ?_⟩
  · cases hca : id.caBytes <;> simp [CreateMSPDirectory, dirsOf, hca]
  · cases hca : id.caBytes <;> simp [CreateMSPDirectory, writesOf, hca]
  · constructor
    · rintro ⟨c, hc⟩
      cases hca : id.caBytes with
      | none =>
        exfalso
        simp only [CreateMSPDirectory, hca, writesOf, List.filterMap_cons,
          List.filterMap_nil, List.append_nil] at hc
        simp only [List.mem_cons, List.not_mem_nil, or_false, Prod.mk.injEq] at hc
        rcases hc with ⟨h, -⟩ | ⟨h, -⟩ | ⟨h, -⟩
        · exact hne1 h
        · exact hne2 h
        · exact hne3 h
      | some ca => simp [hca]
    · intro h
      cases hca : id.caBytes with
      | none => exact absurd hca h
      | some ca =>
        exact ⟨.bytes ca, by simp [CreateMSPDirectory, writesOf, hca]⟩
  · intro ca hca
    simp [CreateMSPDirectory, writesOf, hca]

/-- C6 witness: the layout theorem applied at a concrete directory and a
concrete identity with an issuer. -/
theorem C6_witness :
    (pathJoin (pathJoin "/msp" "cacerts") "ca.pem", FileContent.bytes [7, 8, 9]) ∈
      writesOf (CreateMSPDirectory "/msp" witnessIdentity) :=
  (C6_create_msp_directory_layout "/msp" witnessIdentity).2.2.2 [7, 8, 9] rfl

/-! ## Claim C10 — `Peer.Port` -/

theorem isDigit_ne_plus {c : Char} (h : c.isDigit = true) : c ≠ '+' := by
  intro he
  subst he
  exact absurd h (by decide)

theorem isDigit_ne_minus {c : Char} (h : c.isDigit = true) : c ≠ '-' := by
  intro he
  subst he
  exact absurd h (by decide)

theorem stripSign_no_sign (c : Char) (rest : List Char)
    (h1 : c ≠ '+') (h2 : c ≠ '-') :
    stripSign (c :: rest) = (false, c :: rest) := by
  simp [stripSign, h1, h2]

/-- C10 counterexample: `"4294967303"` (the value 2^32 + 7) is a numeric
port string, yet `Port()` returns the `int32` two's-complement truncation 7,
not the port value — refuting the claim's unconditional "otherwise Port()
returns the URL's port as an integer". -/
theorem C10_counterexample :
    isNumericString "4294967303" = true ∧
    digitStringValue "4294967303" = some 4294967303 ∧
    Peer.Port { witnessPeer with apiPortString := "4294967303" } = 7 ∧
    (7 : Int) ≠ 4294967303 :=
  ⟨by decide, by decide, by decide, by decide⟩

/-- C10 (amended): `Port()` silently discards the `strconv.Atoi` error —
when the API URL has no port component (empty port string) or a non-numeric
port string it returns 0; for an all-digit port string it returns the
two's-complement `int32` truncation of the (int64-clamped) numeric value,
which equals the port value itself exactly when that value fits in an
`int32`, and wraps for larger values. -/
theorem C10_port_conversion (p : Peer) :
    ((p.apiPortString = "" ∨ isNumericString p.apiPortString = false) →
      Peer.Port p = 0) ∧
    (∀ n : Nat, digitStringValue p.apiPortString = some n →
      Peer.Port p =
        int32ofInt (if (n : Int) > maxInt64 then maxInt64 else (n : Int))) ∧
    (∀ n : Nat, digitStringValue p.apiPortString = some n → (n : Int) < 2 ^ 31 →
      Peer.Port p = n) := by
  have hdigit : ∀ n : Nat, digitStringValue p.apiPortString = some n →
      (goAtoi p.apiPortString).1 =
        (if (n : Int) > maxInt64 then maxInt64 else (n : Int)) := by
    intro n hn
    unfold digitStringValue at hn
    by_cases hcond : (p.apiPortString.toList.isEmpty = false ∧
        p.apiPortString.toList.all Char.isDigit = true)
    · rw [if_pos hcond] at hn
      obtain ⟨hne, hall0⟩ := hcond
      obtain ⟨c, rest, hcs⟩ : ∃ c rest, p.apiPortString.toList = c :: rest := by
        cases hx : p.apiPortString.toList with
        | nil => rw [hx] at hne; simp at hne
        | cons a b => exact ⟨a, b, rfl⟩
      rw [hcs] at hn hall0
      have hval : digitsToNatAux 0 (c :: rest) = n := Option.some.inj hn
      have hcd : c.isDigit = true := by
        have := List.all_eq_true.mp hall0 c (by simp)
        simpa using this
      have hstrip : stripSign (c :: rest) = (false, c :: rest) :=
        stripSign_no_sign c rest (isDigit_ne_plus hcd) (isDigit_ne_minus hcd)
      have h0 : (0 : Int) ≤ (digitsToNatAux 0 (c :: rest) : Int) :=
        Int.natCast_nonneg _
      simp only [goAtoi, hcs, hstrip, List.isEmpty_cons, hall0,
        Bool.false_eq_true, not_true_eq_false, false_or, if_false]
      rw [← hval]
      by_cases hbig : ((digitsToNatAux 0 (c :: rest) : Nat) : Int) > maxInt64
      · rw [if_pos hbig, if_pos hbig]
      · rw [if_neg hbig, if_neg (by simp only [minInt64]; omega), if_neg hbig]
    · rw [if_neg hcond] at hn
      exact absurd hn (by simp)
  refine ⟨?_, ?_, ?_⟩
  · intro h
    rcases h with h | h
    · simp only [Peer.Port, h]
      decide
    · unfold isNumericString at h
      cases hcs : p.apiPortString.toList with
      | nil =>
        simp only [Peer.Port, goAtoi, hcs]
        decide
      | cons c rest =>
        rw [hcs] at h
        simp only [Peer.Port, goAtoi, hcs]
        cases hemp : ((stripSign (c :: rest)).2).isEmpty with
        | true =>
          simp only [hemp, true_or, if_true, int32ofInt]
          decide
        | false =>
          cases hall : ((stripSign (c :: rest)).2).all Char.isDigit with
          | true =>
            rw [hemp, hall] at h
            simp at h
          | false =>
            simp only [Bool.false_eq_true, not_false_eq_true, false_or, if_true,
              int32ofInt]
            decide
  · intro n hn
    simp only [Peer.Port, hdigit n hn]
  · intro n hn hlt
    have h0 : (0 : Int) ≤ (n : Int) := Int.natCast_nonneg _
    simp only [Peer.Port, hdigit n hn]
    rw [if_neg (by simp only [maxInt64]; omega)]
    simp only [int32ofInt]
    rw [Int.emod_eq_of_lt (by omega) (by omega)]
    omega

/-- C10 witness: the amended theorem applied at the concrete peer whose API
URL port string is `"7051"` (truncation conjunct and fits-in-int32
conjunct). -/
theorem C10_witness :
    Peer.Port witnessPeer =
      int32ofInt (if (7051 : Int) > maxInt64 then maxInt64 else (7051 : Int)) ∧
    Peer.Port witnessPeer = 7051 :=
  ⟨(C10_port_conversion witnessPeer).2.1 7051 (by decide),
   (C10_port_conversion witnessPeer).2.2 7051 (by decide) (by decide)⟩

/-! ## Claims C1, C3, C7 — the `Start` sequence and its select loop -/

theorem spawn_mem_start_trace_iff (i : StartInputs) :
    Action.spawnProcess ∈ (Peer.Start i).1 ↔
      (i.mkdirOk = true ∧ i.mspWriteOk = true ∧
       (∃ doc, Peer.startConfig i = .ok doc) ∧
       i.logOpenOk = true ∧ i.pipeOk = true ∧ i.spawnOk = true) := by
  cases hmk : i.mkdirOk <;> cases hmsp : i.mspWriteOk <;>
    cases hlog : i.logOpenOk <;> cases hpipe : i.pipeOk <;> cases hspawn : i.spawnOk <;>
    cases hcfg : Peer.startConfig i <;>
    simp [Peer.Start, hmk, hmsp, hlog, hpipe, hspawn, hcfg]

/-- C1: a `Start()` whose spawned process neither exits nor passes a probe
before the overall timeout fires returns the start-timeout error, and
afterwards the process has been killed and the handle cleared — no process
belonging to the node remains running. -/
theorem C1_timeout_kills_process (i : StartInputs) (pre post : List StartEvent)
    (hmk : i.mkdirOk = true) (hmsp : i.mspWriteOk = true)
    (hcfg : ∃ doc, Peer.startConfig i = .ok doc)
    (hlog : i.logOpenOk = true) (hpipe : i.pipeOk = true) (hspawn : i.spawnOk = true)
    (hev : i.events = pre ++ StartEvent.timeout :: post)
    (hpre : ∀ e ∈ pre, e = .tick false) :
    (Peer.Start i).2 =
      some (.error "timeout whilst waiting for peer to start",
        (⟨false, false⟩ : LoopState)) := by
  obtain ⟨doc, hcfg⟩ := hcfg
  simp [Peer.Start, hmk, hmsp, hcfg, hlog, hpipe, hspawn, hev,
    runStartLoop_skip_failed_ticks pre (StartEvent.timeout :: post) ⟨true, true⟩ hpre,
    runStartLoop, Peer.Stop]

/-- C1 witness: one failed probe tick, then the timeout. -/
theorem C1_witness :
    (Peer.Start (wInputs witnessTemplate [.tick false, .timeout])).2 =
      some (.error "timeout whilst waiting for peer to start",
        (⟨false, false⟩ : LoopState)) :=
  C1_timeout_kills_process (wInputs witnessTemplate [.tick false, .timeout])
    [.tick false] [] rfl rfl ⟨_, rfl⟩ rfl rfl rfl rfl
    (by intro e he; simpa using he)

/-- C3 counterexample: the claim says *any* process exit before the timeout
is reported through the channel and surfaces as a process-exit error, but a
clean exit (exit status 0, `cmd.Wait()` returns `nil`) is never sent on
`errchan`: the loop keeps ticking and `Start` returns the *timeout* error
instead of a process-exit error. -/
theorem C3_counterexample :
    (Peer.Start (wInputs witnessTemplate [.exitClean, .timeout])).2 =
      some (.error "timeout whilst waiting for peer to start",
        (⟨false, true⟩ : LoopState)) :=
  rfl

/-- C3 (amended): if the spawned process exits with a *non-nil* exit cause
before the timeout and before any successful probe, the monitor task reports
it through the single-slot channel and `Start()` returns a process-exit error
wrapping the underlying cause; an exit with status 0 is not reported, and
`Start()` later returns the timeout error instead. -/
theorem C3_exit_error_wraps_cause (i : StartInputs) (pre post : List StartEvent)
    (cause : String)
    (hmk : i.mkdirOk = true) (hmsp : i.mspWriteOk = true)
    (hcfg : ∃ doc, Peer.startConfig i = .ok doc)
    (hlog : i.logOpenOk = true) (hpipe : i.pipeOk = true) (hspawn : i.spawnOk = true)
    (hev : i.events = pre ++ StartEvent.exitErr cause :: post)
    (hpre : ∀ e ∈ pre, e = .tick false) :
    (Peer.Start i).2 =
      some (.error ("failed to start peer: " ++ cause),
        (⟨false, true⟩ : LoopState)) := by
  obtain ⟨doc, hcfg⟩ := hcfg
  simp [Peer.Start, hmk, hmsp, hcfg, hlog, hpipe, hspawn, hev,
    runStartLoop_skip_failed_ticks pre (StartEvent.exitErr cause :: post) ⟨true, true⟩ hpre,
    runStartLoop, Peer.Stop]

/-- C3 witness: the amended theorem applied to an abnormal exit with cause
`exit status 1`. -/
theorem C3_witness :
    (Peer.Start (wInputs witnessTemplate [.exitErr "exit status 1"])).2 =
      some (.error "failed to start peer: exit status 1",
        (⟨false, true⟩ : LoopState)) :=
  C3_exit_error_wraps_cause (wInputs witnessTemplate [.exitErr "exit status 1"])
    [] [] "exit status 1" rfl rfl ⟨_, rfl⟩ rfl rfl rfl rfl (by simp)

/-- C7: the trust-directory write and the config-document write complete
(in source order, after directory creation) before the process is spawned —
whenever the spawn phase appears in a `Start()` trace it is the last phase of
exactly `[createDirs, writeMSPDirectory, writeConfigFile, spawnProcess]` —
and a failed trust-directory write or a failed config synthesis aborts
`Start()` with no spawn. -/
theorem C7_writes_complete_before_spawn (i : StartInputs) :
    (Action.spawnProcess ∈ (Peer.Start i).1 →
      (Peer.Start i).1 =
        [.createDirs, .writeMSPDirectory, .writeConfigFile, .spawnProcess]) ∧
    (i.mspWriteOk = false → Action.spawnProcess ∉ (Peer.Start i).1) ∧
    (∀ e, Peer.startConfig i = .error e → Action.spawnProcess ∉ (Peer.Start i).1) := by
  cases hmk : i.mkdirOk <;> cases hmsp : i.mspWriteOk <;>
    cases hlog : i.logOpenOk <;> cases hpipe : i.pipeOk <;> cases hspawn : i.spawnOk <;>
    cases hcfg : Peer.startConfig i <;>
    simp [Peer.Start, hmk, hmsp, hlog, hpipe, hspawn, hcfg]

/-- C7 witness: an all-phases-succeed run whose trace is exactly the four
ordered phases. -/
theorem C7_witness :
    (Peer.Start (wInputs witnessTemplate [.tick true])).1 =
      [.createDirs, .writeMSPDirectory, .writeConfigFile, .spawnProcess] :=
  (C7_writes_complete_before_spawn (wInputs witnessTemplate [.tick true])).1
    (by
      rw [show (Peer.Start (wInputs witnessTemplate [.tick true])).1 =
        [.createDirs, .writeMSPDirectory, .writeConfigFile, .spawnProcess] from rfl]
      simp)

/-! ## Claim C4 — missing template sections -/

theorem no_spawn_of_config_error (i : StartInputs) (e : String)
    (he : Peer.startConfig i = .error e) :
    Action.spawnProcess ∉ (Peer.Start i).1 := by
  intro hmem
  obtain ⟨-, -, ⟨doc, hdoc⟩, -⟩ := (spawn_mem_start_trace_iff i).mp hmem
  rw [he] at hdoc
  exact Except.noConfusion hdoc

/-- C4: with the template location set and the template readable, a template
missing any one of the required sections (`peer`, `peer.gossip`, `metrics`,
`operations`, `vm`, `chaincode`) makes config synthesis fail with the error
naming that section, and no process is spawned. -/
theorem C4_missing_section_fails (i : StartInputs) (config : YamlMap)
    (henv : ∃ fp, i.ci.fabricCfgPath = some fp)
    (hread : i.ci.templateRead = .ok config) :
    (getMap config "peer" = none →
      Peer.startConfig i = .error "core.yaml missing peer section" ∧
      Action.spawnProcess ∉ (Peer.Start i).1) ∧
    (∀ peer0, getMap config "peer" = some peer0 →
      getMap peer0 "gossip" = none →
      Peer.startConfig i = .error "core.yaml missing peer.gossip section" ∧
      Action.spawnProcess ∉ (Peer.Start i).1) ∧
    (∀ peer0 gossip0, getMap config "peer" = some peer0 →
      getMap peer0 "gossip" = some gossip0 →
      getMap config "metrics" = none →
      Peer.startConfig i = .error "core.yaml missing metrics section" ∧
      Action.spawnProcess ∉ (Peer.Start i).1) ∧
    (∀ peer0 gossip0 metrics0, getMap config "peer" = some peer0 →
      getMap peer0 "gossip" = some gossip0 →
      getMap config "metrics" = some metrics0 →
      getMap config "operations" = none →
      Peer.startConfig i = .error "core.yaml missing operations section" ∧
      Action.spawnProcess ∉ (Peer.Start i).1) ∧
    (∀ peer0 gossip0 metrics0 operations0, getMap config "peer" = some peer0 →
      getMap peer0 "gossip" = some gossip0 →
      getMap config "metrics" = some metrics0 →
      getMap config "operations" = some operations0 →
      getMap config "vm" = none →
      Peer.startConfig i = .error "core.yaml missing vm section" ∧
      Action.spawnProcess ∉ (Peer.Start i).1) ∧
    (∀ peer0 gossip0 metrics0 operations0 vm0, getMap config "peer" = some peer0 →
      getMap peer0 "gossip" = some gossip0 →
      getMap config "metrics" = some metrics0 →
      getMap config "operations" = some operations0 →
      getMap config "vm" = some vm0 →
      getMap config "chaincode" = none →
      Peer.startConfig i = .error "core.yaml missing chaincode section" ∧
      Action.spawnProcess ∉ (Peer.Start i).1) := by
  obtain ⟨fp, hfp⟩ := henv
  refine ⟨?_, ?_, ?_, ?_, ?_, ?_⟩
  · intro h1
    have herr : Peer.startConfig i = .error "core.yaml missing peer section" := by
      simp [Peer.startConfig, Peer.createConfig, hfp, hread, h1]
    exact ⟨herr, no_spawn_of_config_error i _ herr⟩
  · intro peer0 h1 h2
    have herr : Peer.startConfig i = .error "core.yaml missing peer.gossip section" := by
      simp [Peer.startConfig, Peer.createConfig, hfp, hread, h1, h2, getMap_setKey_ne]
    exact ⟨herr, no_spawn_of_config_error i _ herr⟩
  · intro peer0 gossip0 h1 h2 h3
    have herr : Peer.startConfig i = .error "core.yaml missing metrics section" := by
      simp [Peer.startConfig, Peer.createConfig, hfp, hread, h1, h2, h3, getMap_setKey_ne]
    exact ⟨herr, no_spawn_of_config_error i _ herr⟩
  · intro peer0 gossip0 metrics0 h1 h2 h3 h4
    have herr : Peer.startConfig i = .error "core.yaml missing operations section" := by
      simp [Peer.startConfig, Peer.createConfig, hfp, hread, h1, h2, h3, h4,
        getMap_setKey_ne]
    exact ⟨herr, no_spawn_of_config_error i _ herr⟩
  · intro peer0 gossip0 metrics0 operations0 h1 h2 h3 h4 h5
    have herr : Peer.startConfig i = .error "core.yaml missing vm section" := by
      simp [Peer.startConfig, Peer.createConfig, hfp, hread, h1, h2, h3, h4, h5,
        getMap_setKey_ne]
    exact ⟨herr, no_spawn_of_config_error i _ herr⟩
  · intro peer0 gossip0 metrics0 operations0 vm0 h1 h2 h3 h4 h5 h6
    have herr : Peer.startConfig i = .error "core.yaml missing chaincode section" := by
      simp [Peer.startConfig, Peer.createConfig, hfp, hread, h1, h2, h3, h4, h5, h6,
        getMap_setKey_ne]
    exact ⟨herr, no_spawn_of_config_error i _ herr⟩

/-- C4 witness: the theorem applied to the concrete template whose `vm`
section is missing. -/
theorem C4_witness :
    Peer.startConfig (wInputs templateNoVM []) = .error "core.yaml missing vm section" ∧
    Action.spawnProcess ∉ (Peer.Start (wInputs templateNoVM [])).1 :=
  (C4_missing_section_fails (wInputs templateNoVM []) templateNoVM
      ⟨"/opt/fabric/config", rfl⟩ rfl).2.2.2.2.1
    [("gossip", .map [])] [] [] [] rfl rfl rfl rfl rfl

/-! ## Claim C5 — the fixed external-builders allow-lists -/

/-- C5: for every template containing the required sections, the synthesized
config's `chaincode.externalBuilders` list is exactly the four fixed builder
entries, and their `propagateEnvironment` lists equal — verbatim and as sets —
the fixed allow-lists: `{GOCACHE, GOENV, GOROOT, HOME}` (Go),
`{HOME, JAVA_HOME, MAVEN_OPTS}` (Java), `{HOME, npm_config_cache}` (Node) and
`{HOME}` (external-service builder). -/
theorem C5_external_builders (i : StartInputs)
    (config peer0 gossip0 metrics0 operations0 vm0 chaincode0 : YamlMap)
    (home : String)
    (henv : ∃ fp, i.ci.fabricCfgPath = some fp)
    (hread : i.ci.templateRead = .ok config)
    (hpeer : getMap config "peer" = some peer0)
    (hgossip : getMap peer0 "gossip" = some gossip0)
    (hmetrics : getMap config "metrics" = some metrics0)
    (hoperations : getMap config "operations" = some operations0)
    (hvm : getMap config "vm" = some vm0)
    (hchaincode : getMap config "chaincode" = some chaincode0)
    (hhome : i.ci.homeDirectory = .ok home)
    (hwrite : i.ci.writeOk = true) :
    (∃ out, Peer.startConfig i = .ok out) ∧
    buildersOfResult (Peer.startConfig i) = some (builderEntries home) ∧
    (builderEntries home).length = 4 ∧
    (builderEntries home).map propEnvOfV =
      [some ["GOCACHE", "GOENV", "GOROOT", "HOME"],
       some ["HOME", "JAVA_HOME", "MAVEN_OPTS"],
       some ["HOME", "npm_config_cache"],
       some ["HOME"]] ∧
    (builderEntries home).map (fun b => (propEnvOfV b).map List.toFinset) =
      [some {"GOCACHE", "GOENV", "GOROOT", "HOME"},
       some {"HOME", "JAVA_HOME", "MAVEN_OPTS"},
       some {"HOME", "npm_config_cache"},
       some {"HOME"}] := by
  obtain ⟨fp, hfp⟩ := henv
  have hbuild : buildersOfResult (Peer.startConfig i) = some (builderEntries home) := by
    simp [Peer.startConfig, Peer.createConfig, hfp, hread, hpeer, hgossip, hmetrics,
      hoperations, hvm, hchaincode, hhome, hwrite, buildersOfResult, externalBuildersOf,
      getMap_setKey_ne, getMap_setKey_self, getKey_setKey_self, externalBuildersValue]
  have hok : ∃ out, Peer.startConfig i = .ok out := by
    cases hx : Peer.startConfig i with
    | ok out => exact ⟨out, rfl⟩
    | error e =>
      rw [hx] at hbuild
      exact absurd hbuild (by simp [buildersOfResult])
  have h4 : (builderEntries home).map propEnvOfV =
      [some ["GOCACHE", "GOENV", "GOROOT", "HOME"],
       some ["HOME", "JAVA_HOME", "MAVEN_OPTS"],
       some ["HOME", "npm_config_cache"],
       some ["HOME"]] := rfl
  refine ⟨hok, hbuild, rfl, h4, ?_⟩
  show (builderEntries home).map (Option.map List.toFinset ∘ propEnvOfV) = _
  rw [← List.map_map, h4]
  decide

/-- C5 witness: the theorem applied to the concrete full template. -/
theorem C5_witness :
    (∃ out, Peer.startConfig (wInputs witnessTemplate []) = .ok out) ∧
    buildersOfResult (Peer.startConfig (wInputs witnessTemplate [])) =
      some (builderEntries "/home/microfab") ∧
    (builderEntries "/home/microfab").length = 4 ∧
    (builderEntries "/home/microfab").map propEnvOfV =
      [some ["GOCACHE", "GOENV", "GOROOT", "HOME"],
       some ["HOME", "JAVA_HOME", "MAVEN_OPTS"],
       some ["HOME", "npm_config_cache"],
       some ["HOME"]] ∧
    (builderEntries "/home/microfab").map (fun b => (propEnvOfV b).map List.toFinset) =
      [some {"GOCACHE", "GOENV", "GOROOT", "HOME"},
       some {"HOME", "JAVA_HOME", "MAVEN_OPTS"},
       some {"HOME", "npm_config_cache"},
       some {"HOME"}] :=
  C5_external_builders (wInputs witnessTemplate [])
    witnessTemplate [("gossip", .map [])] [] [] [] [] [] "/home/microfab"
    ⟨"/opt/fabric/config", rfl⟩ rfl rfl rfl rfl rfl rfl rfl rfl rfl

end Microfab
